import Mathlib

/-!
Verification of the beads schema-evolution / referential-integrity subsystem
and the sync orchestrator, as a shallow embedding of the Go sources.

Part 1: the orphan-detection query over the issues table
(internal/storage/dolt/migrations/003_orphan_detection.go).
The SQL query is

  SELECT id, title, status FROM issues
  WHERE INSTR(id, a dot) > 0
    AND SUBSTRING(id, 1, INSTR(id, a dot) - 1) NOT IN (SELECT id FROM issues)
  ORDER BY id

and is embedded as a pure function on a list of rows.
-/

/-- A row of the issues table as created by the test schema:
id, title, status plus the ephemeral and pinned flags. -/
structure IssueRow where
  id : String
  title : String
  status : String
  ephemeral : Bool
  pinned : Bool
  deriving Repr, DecidableEq

/-- OrphanInfo holds information about an orphaned child issue
(projection of a row to id, title, status). -/
structure OrphanInfo where
  ID : String
  Title : String
  Status : String
  deriving Repr, DecidableEq

/-- SQL INSTR on a character list: 1-based position of the first occurrence
of the character t, or 0 when t does not occur. -/
def instrList (t : Char) : List Char → Nat
  | [] => 0
  | c :: cs =>
    if c = t then 1
    else match instrList t cs with
      | 0 => 0
      | n => n + 1

/-- SQL INSTR(s, t): 1-based position of the first occurrence of character t
in string s, or 0 when absent. -/
def INSTR (s : String) (t : Char) : Nat := instrList t s.toList

/-- SQL SUBSTRING(s, 1, INSTR(s, dot) - 1): the characters of s strictly
before the first dot, as computed by the orphan query. -/
def sqlParent (s : String) : String := String.mk (s.toList.take (INSTR s '.' - 1))

/-- Spec-side reading of: the ID contains the separator character. -/
def hasSeparator (s : String) : Bool := s.toList.any (fun c => c = '.')

/-- Spec-side reading of: the substring of the ID strictly before the first
dot (the parent prefix of a child ID). -/
def parentOf (s : String) : String := String.mk (s.toList.takeWhile (fun c => ¬ c = '.'))

/-- The WHERE clause of the orphan query, for one row, given the list of all
ids in the issues table: INSTR(id, dot) > 0 AND SUBSTRING(id, 1,
INSTR(id, dot) - 1) NOT IN (SELECT id FROM issues). -/
def isOrphanRow (ids : List String) (r : IssueRow) : Bool :=
  decide (0 < INSTR r.id '.') && decide (sqlParent r.id ∉ ids)

/-- The SELECT projection of the orphan query: id, title, status. -/
def toOrphanInfo (r : IssueRow) : OrphanInfo := ⟨r.id, r.title, r.status⟩

/-- Comparison used by ORDER BY id: ascending lexicographic order on the ID. -/
def idLe (a b : OrphanInfo) : Prop := a.ID ≤ b.ID

instance : DecidableRel idLe := fun a b => inferInstanceAs (Decidable (a.ID ≤ b.ID))

instance : IsTotal OrphanInfo idLe := ⟨fun a b => le_total a.ID b.ID⟩

instance : IsTrans OrphanInfo idLe := ⟨fun _ _ _ h1 h2 => le_trans h1 h2⟩

/-- QueryOrphanedChildren: returns all child issues whose parent does not
exist, projected to OrphanInfo and ordered by id ascending. -/
def QueryOrphanedChildren (tbl : List IssueRow) : List OrphanInfo :=
  List.insertionSort idLe ((tbl.filter (isOrphanRow (tbl.map IssueRow.id))).map toOrphanInfo)

/-- The spec wording of the WHERE clause: the ID contains the separator and
the parent prefix (substring before the first dot) is not the ID of any row. -/
def specOrphanRow (ids : List String) (r : IssueRow) : Bool :=
  hasSeparator r.id && decide (parentOf r.id ∉ ids)

/-!
Part 2: DetectOrphanedChildren (same file). The two database effects it
performs, the tableExists probe and the orphan query, are abstracted as
their results; the function itself is embedded faithfully: propagate a
wrapped error from either effect, succeed silently when the table is
absent or no orphans exist, and log (never fail) when orphans are found.
-/

deriving instance DecidableEq for Except

/-- The observable outcome of one DetectOrphanedChildren call: the returned
error value, whether the orphan query was run, and the log lines emitted. -/
structure DetectOutcome where
  res : Except String Unit
  queryRan : Bool
  logLines : List String
  deriving Repr, DecidableEq

/-- True exactly on Except.error values. -/
def isErr {ε α : Type} : Except ε α → Bool
  | Except.error _ => true
  | Except.ok _ => false

/-- The log lines emitted when orphans are found: a count header, one line
per orphan, and a remediation hint. -/
def orphanLogLines (orphans : List OrphanInfo) : List String :=
  ("orphan detection: found " ++ toString orphans.length ++ " orphaned child issue(s):")
    :: (orphans.map (fun o =>
        "  orphan: " ++ o.ID ++ " (title=" ++ o.Title ++ ", status=" ++ o.Status ++ ")"))
    ++ ["orphan detection: run bd doctor --fix to repair orphaned children"]

/-- DetectOrphanedChildren, over the results of its two database effects:
tRes is the result of tableExists(db, issues), qRes the result of
QueryOrphanedChildren(db) (only consulted when the table exists). -/
def detectRun (tRes : Except String Bool) (qRes : Except String (List OrphanInfo)) :
    DetectOutcome :=
  match tRes with
  | Except.error e => ⟨Except.error ("failed to check issues table: " ++ e), false, []⟩
  | Except.ok false => ⟨Except.ok (), false, []⟩
  | Except.ok true =>
    match qRes with
    | Except.error e => ⟨Except.error ("failed to detect orphaned children: " ++ e), true, []⟩
    | Except.ok orphans =>
      if orphans.length = 0 then ⟨Except.ok (), true, []⟩
      else ⟨Except.ok (), true, orphanLogLines orphans⟩

/-!
Part 3: a concrete database state, for the read-only / idempotence claim.
DetectOrphanedChildren and QueryOrphanedChildren issue only SELECT and
catalog-read statements, so their embedding over a concrete state threads
the state through unchanged.
-/

/-- A concrete database state: the catalog (table names) and the rows of
the issues table. -/
structure DbState where
  tables : List String
  issues : List IssueRow
  deriving Repr, DecidableEq

/-- Modelled from the spec: tableExists (the SchemaIntrospector operation
TableExists), whose implementation is not under src. Per the spec it is a
pure catalog read with no side effects: it reports whether a table with
the given name exists, and absence is a false result, not an error. -/
def tableExistsState (st : DbState) (name : String) : Bool :=
  decide (name ∈ st.tables)

/-- DetectOrphanedChildren run against a concrete database state: both
effects are reads of the state, and the state is returned unchanged
(the source issues only SELECT / catalog queries). -/
def detectRunState (st : DbState) : DbState × DetectOutcome :=
  (st, detectRun (Except.ok (tableExistsState st "issues"))
        (Except.ok (QueryOrphanedChildren st.issues)))

/-!
Part 4: the sync orchestrator (the Run function of syncCmd). The
collaborator results (commit, export, push, remote check, beads-dir
lookup, sync mode) are inputs; the embedding mirrors the control flow of
the Go function and records which steps ran and what was printed.
-/

/-- The synchronization mode: dolt-native (no JSONL mirror) or the default
mirror mode with a JSONL export. -/
inductive SyncMode where
  | doltNative
  | mirror
  deriving Repr, DecidableEq

/-- The environment of one sync invocation: whether the global store is
non-nil, the FindBeadsDir result (empty string when not found), the
results the collaborators would return, the isDoltNothingToCommit
classifier, and the configured sync mode. -/
structure SyncEnv where
  storeOpen : Bool
  beadsDir : String
  commitRes : Except String Unit
  nothingToCommit : String → Bool
  syncMode : SyncMode
  hasRemoteRes : Except String Bool
  pushRes : Except String Unit
  exportRes : Except String Unit

/-- The observable trace of one sync invocation: which steps were
attempted, the warnings printed to standard error per step, and whether
the push success message was printed. -/
structure SyncTrace where
  commitAttempted : Bool
  commitWarning : Option String
  exportAttempted : Bool
  exportWarning : Option String
  pushAttempted : Bool
  pushWarning : Option String
  pushInfo : Bool
  deriving Repr, DecidableEq

/-- The trace of a sync invocation that did nothing at all. -/
def noopTrace : SyncTrace := ⟨false, none, false, none, false, none, false⟩

/-- The commit step: on error, the isDoltNothingToCommit classification
suppresses the warning; otherwise a warning is printed. -/
def commitStep (env : SyncEnv) : Option String :=
  match env.commitRes with
  | Except.ok _ => none
  | Except.error e =>
    if env.nothingToCommit e then none
    else some ("Warning: Dolt commit failed: " ++ e)

/-- The export step (mirror mode only): failure prints a warning. -/
def exportStep (env : SyncEnv) : Option String :=
  match env.exportRes with
  | Except.ok _ => none
  | Except.error e => some ("Warning: export failed: " ++ e)

/-- The push step: attempted only when HasRemote(origin) returns (true,
nil); an erroring HasRemote skips it silently, exactly like a false
result. Returns (attempted, warning, success message printed). -/
def pushStep (env : SyncEnv) : Bool × Option String × Bool :=
  match env.hasRemoteRes with
  | Except.ok true =>
    match env.pushRes with
    | Except.ok _ => (true, none, true)
    | Except.error e => (true, some ("Warning: Dolt push failed: " ++ e), false)
  | Except.ok false => (false, none, false)
  | Except.error _ => (false, none, false)

/-- Whether HasRemote(origin) returned (true, nil). -/
def remoteConfigured (env : SyncEnv) : Bool :=
  match env.hasRemoteRes with
  | Except.ok true => true
  | Except.ok false => false
  | Except.error _ => false

/-- The Run function of syncCmd: return immediately when the store is nil
or no beads directory is found; otherwise commit (warn-and-continue),
then in dolt-native mode push and return, and in mirror mode export
(warn-and-continue) and then push. -/
def syncRun (env : SyncEnv) : SyncTrace :=
  if env.storeOpen = false then noopTrace
  else if env.beadsDir = "" then noopTrace
  else
    let cw := commitStep env
    if env.syncMode = SyncMode.doltNative then
      let p := pushStep env
      ⟨true, cw, false, none, p.1, p.2.1, p.2.2⟩
    else
      let ew := exportStep env
      let p := pushStep env
      ⟨true, cw, true, ew, p.1, p.2.1, p.2.2⟩

/-- The components of a sync trace other than the commit warning. -/
def traceRest (t : SyncTrace) :
    Bool × Bool × Option String × Bool × Option String × Bool :=
  (t.commitAttempted, t.exportAttempted, t.exportWarning,
   t.pushAttempted, t.pushWarning, t.pushInfo)

/-!
Part 5: the wisp-type column migration. Its implementation is not among
the given sources (only its test is), so it is modelled from the spec.
-/

/-- The schema state of the issues table: its column names in order. -/
structure Schema where
  issuesCols : List String
  deriving Repr, DecidableEq

/-- Modelled from the spec: columnExists (the SchemaIntrospector operation
ColumnExists), whose implementation is not under src. A pure catalog
read: whether the issues table has a column with the given name. -/
def columnExistsS (s : Schema) (c : String) : Bool :=
  decide (c ∈ s.issuesCols)

/-- Modelled from the spec: MigrateWispTypeColumn, whose implementation is
not under src. Per the spec it probes ColumnExists(issues, wisp_type)
first; when the column is present it returns success without touching the
schema, otherwise it issues an additive column-add. -/
def MigrateWispTypeColumn (s : Schema) : Except String Schema :=
  if columnExistsS s "wisp_type" then Except.ok s
  else Except.ok ⟨s.issuesCols ++ ["wisp_type"]⟩

/-- A concrete sync environment: open store, a found beads directory,
mirror mode, an origin remote, and all collaborators succeeding. Used to
instantiate the sync theorems on concrete inputs. -/
def sampleEnv : SyncEnv :=
  ⟨true, ".beads", Except.ok (), fun s => decide (s = "nothing to commit"),
   SyncMode.mirror, Except.ok true, Except.ok (), Except.ok ()⟩

/-!
Helper lemmas.
-/

theorem instrList_pos_iff (t : Char) (l : List Char) : 0 < instrList t l ↔ t ∈ l := by
  induction l with
  | nil => simp [instrList]
  | cons c cs ih =>
    by_cases hc : c = t
    · subst hc
      simp [instrList]
    · rw [List.mem_cons]
      constructor
      · intro hpos
        right
        rw [← ih]
        by_contra hnp
        have h0 : instrList t cs = 0 := by omega
        simp only [instrList, if_neg hc, h0] at hpos
        exact absurd hpos (by omega)
      · intro hm
        rcases hm with hm | hm
        · exact absurd hm.symm hc
        · have hpos := ih.mpr hm
          simp only [instrList, if_neg hc]
          cases h : instrList t cs with
          | zero =>
            rw [h] at hpos
            exact absurd hpos (by omega)
          | succ n => exact Nat.succ_pos _

theorem take_instr_eq_takeWhile (t : Char) (l : List Char) (h : 0 < instrList t l) :
    l.take (instrList t l - 1) = l.takeWhile (fun c => ¬ c = t) := by
  induction l with
  | nil => simp [instrList] at h
  | cons c cs ih =>
    by_cases hc : c = t
    · simp [instrList, hc, List.takeWhile]
    · simp only [instrList, if_neg hc] at h ⊢
      cases hcs : instrList t cs with
      | zero => simp [hcs] at h
      | succ n =>
        have hpos : 0 < instrList t cs := by omega
        have := ih hpos
        rw [hcs] at this
        simp only [hcs, Nat.succ_sub_one, List.take_succ_cons, List.takeWhile_cons,
          decide_not, decide_eq_false hc]
        simp only [Nat.succ_sub_one] at this
        simp [this]

theorem hasSeparator_iff_mem (s : String) : hasSeparator s = true ↔ '.' ∈ s.toList := by
  simp [hasSeparator]

theorem instr_pos_iff_hasSeparator (s : String) :
    0 < INSTR s '.' ↔ hasSeparator s = true := by
  rw [hasSeparator_iff_mem]
  exact instrList_pos_iff '.' s.toList

theorem sqlParent_eq_parentOf (s : String) (h : 0 < INSTR s '.') :
    sqlParent s = parentOf s :=
  congrArg String.mk (take_instr_eq_takeWhile '.' s.toList h)

theorem isOrphanRow_eq_spec (ids : List String) (r : IssueRow) :
    isOrphanRow ids r = specOrphanRow ids r := by
  unfold isOrphanRow specOrphanRow
  cases hsep : hasSeparator r.id with
  | false =>
    have h0 : ¬ 0 < INSTR r.id '.' := fun hp =>
      Bool.false_ne_true (hsep ▸ (instr_pos_iff_hasSeparator r.id).mp hp)
    simp [h0]
  | true =>
    have hpos : 0 < INSTR r.id '.' := (instr_pos_iff_hasSeparator r.id).mpr hsep
    rw [sqlParent_eq_parentOf r.id hpos]
    simp [hpos]

theorem filter_orphan_eq_spec (tbl : List IssueRow) :
    tbl.filter (isOrphanRow (tbl.map IssueRow.id)) =
      tbl.filter (specOrphanRow (tbl.map IssueRow.id)) :=
  List.filter_congr (fun x _ => isOrphanRow_eq_spec _ x)

theorem queryOrphanedChildren_perm (tbl : List IssueRow) :
    List.Perm (QueryOrphanedChildren tbl)
      ((tbl.filter (specOrphanRow (tbl.map IssueRow.id))).map toOrphanInfo) := by
  unfold QueryOrphanedChildren
  rw [filter_orphan_eq_spec]
  exact List.perm_insertionSort idLe _

theorem mem_queryOrphanedChildren (tbl : List IssueRow) (o : OrphanInfo) :
    o ∈ QueryOrphanedChildren tbl ↔
      ∃ r ∈ tbl, hasSeparator r.id = true ∧ parentOf r.id ∉ tbl.map IssueRow.id ∧
        o = toOrphanInfo r := by
  rw [(queryOrphanedChildren_perm tbl).mem_iff]
  simp only [List.mem_map, List.mem_filter, specOrphanRow, Bool.and_eq_true,
    decide_eq_true_eq]
  constructor
  · rintro ⟨r, ⟨hr, hs, hp⟩, rfl⟩
    exact ⟨r, hr, hs, hp, rfl⟩
  · rintro ⟨r, hr, hs, hp, rfl⟩
    exact ⟨r, ⟨hr, hs, hp⟩, rfl⟩

theorem instrList_append_of_not_mem (t : Char) (l1 l2 : List Char) (h : t ∉ l1) :
    instrList t (l1 ++ t :: l2) = l1.length + 1 := by
  induction l1 with
  | nil => simp [instrList]
  | cons c cs ih =>
    have hc : ¬ c = t := fun hct => h (hct ▸ List.mem_cons_self c cs)
    have hcs : t ∉ cs := fun hm => h (List.mem_cons_of_mem c hm)
    simp only [List.cons_append, instrList, if_neg hc]
    rw [List.append_eq, ih hcs]
    rfl

/-!
Claim theorems.
-/

/-- C1: QueryOrphanedChildren returns exactly the set of issues whose ID
contains the separator dot and whose parent prefix (the substring of the
ID strictly before the first dot) does not occur as the ID of any row in
the issues table, each projected to ID, Title, Status, and the result is
sorted ascending (lexicographically) by ID. -/
theorem queryOrphanedChildren_exact (tbl : List IssueRow) :
    List.Sorted idLe (QueryOrphanedChildren tbl) ∧
    List.Perm (QueryOrphanedChildren tbl)
      ((tbl.filter (specOrphanRow (tbl.map IssueRow.id))).map toOrphanInfo) ∧
    ∀ o : OrphanInfo, o ∈ QueryOrphanedChildren tbl ↔
      ∃ r ∈ tbl, hasSeparator r.id = true ∧ parentOf r.id ∉ tbl.map IssueRow.id ∧
        o = toOrphanInfo r := by
  refine ⟨?_, queryOrphanedChildren_perm tbl, fun o => mem_queryOrphanedChildren tbl o⟩
  unfold QueryOrphanedChildren
  exact List.sorted_insertionSort idLe _

/-- C2: for a table holding a root issue P and its grandchild P.1.1, with
the intermediate issue P.1 absent, QueryOrphanedChildren returns the
empty set: the parent test uses only the prefix before the first
separator, so a grandchild whose direct parent is missing but whose root
ancestor exists is not reported as orphaned. -/
theorem queryOrphanedChildren_deepNesting (p tP sP tG sG : String) (eP pP eG pG : Bool)
    (hp : hasSeparator p = false) :
    QueryOrphanedChildren
      [⟨p, tP, sP, eP, pP⟩, ⟨p ++ ".1.1", tG, sG, eG, pG⟩] = [] := by
  have hnot : '.' ∉ p.toList := fun hm =>
    Bool.false_ne_true (hp ▸ (hasSeparator_iff_mem p).mpr hm)
  have htoList : (p ++ ".1.1").toList = p.toList ++ '.' :: '1' :: '.' :: '1' :: [] := by
    rfl
  have hinstr : INSTR (p ++ ".1.1") '.' = p.toList.length + 1 := by
    unfold INSTR
    rw [htoList]
    exact instrList_append_of_not_mem '.' p.toList _ hnot
  have hparent : sqlParent (p ++ ".1.1") = p := by
    unfold sqlParent
    rw [hinstr, htoList, Nat.add_sub_cancel, List.take_left]
    rfl
  have h1 : isOrphanRow [p, p ++ ".1.1"] ⟨p, tP, sP, eP, pP⟩ = false := by
    have hnp : ¬ 0 < INSTR p '.' := fun hpos =>
      Bool.false_ne_true (hp ▸ (instr_pos_iff_hasSeparator p).mp hpos)
    simp [isOrphanRow, hnp]
  have h2 : isOrphanRow [p, p ++ ".1.1"] ⟨p ++ ".1.1", tG, sG, eG, pG⟩ = false := by
    simp [isOrphanRow, hparent]
  unfold QueryOrphanedChildren
  have hmap : ([⟨p, tP, sP, eP, pP⟩, ⟨p ++ ".1.1", tG, sG, eG, pG⟩] :
      List IssueRow).map IssueRow.id = [p, p ++ ".1.1"] := rfl
  rw [hmap]
  simp [List.filter, h1, h2, List.insertionSort]

/-- Witness for C2: the concrete two-row table of the deep-nesting test,
with root bd-abc123 present and grandchild bd-abc123.1.1 present, yields
an empty orphan set. -/
theorem queryOrphanedChildren_deepNesting_witness :
    hasSeparator "bd-abc123" = false ∧
    QueryOrphanedChildren
      [⟨"bd-abc123", "Parent", "open", false, false⟩,
       ⟨"bd-abc123" ++ ".1.1", "Grandchild", "open", false, false⟩] = [] :=
  ⟨by decide,
   queryOrphanedChildren_deepNesting "bd-abc123" "Parent" "open" "Grandchild" "open"
     false false false false (by decide)⟩

theorem pushStep_fst (env : SyncEnv) : (pushStep env).1 = remoteConfigured env := by
  unfold pushStep remoteConfigured
  cases env.hasRemoteRes with
  | error e => rfl
  | ok b =>
    cases b with
    | false => rfl
    | true => cases env.pushRes <;> rfl

/-- C3: DetectOrphanedChildren returns an error exactly when the
table-existence check or the orphan query fails; when the issues table is
absent it returns success without running the orphan query; and whenever
the query succeeds it returns success, whatever list of orphans was
found. -/
theorem detectRun_errorClassification (t : Except String Bool)
    (q : Except String (List OrphanInfo)) :
    (isErr (detectRun t q).res = true ↔
      (isErr t = true ∨ (t = Except.ok true ∧ isErr q = true))) ∧
    (t = Except.ok false → detectRun t q = ⟨Except.ok (), false, []⟩) ∧
    (∀ l, t = Except.ok true → q = Except.ok l →
      (detectRun t q).res = Except.ok ()) := by
  refine ⟨?_, ?_, ?_⟩
  · cases t with
    | error e => simp [detectRun, isErr]
    | ok b =>
      cases b with
      | false => simp [detectRun, isErr]
      | true =>
        cases q with
        | error e => simp [detectRun, isErr]
        | ok l =>
          by_cases hl : l.length = 0
          · simp [detectRun, isErr, hl]
          · simp [detectRun, isErr, hl]
  · intro ht
    subst ht
    rfl
  · intro l ht hq
    subst ht
    subst hq
    by_cases hl : l.length = 0
    · simp [detectRun, hl]
    · simp [detectRun, hl]

/-- Witness for C3: with the issues table absent the call succeeds without
running the query; with the table present and the query succeeding with
one orphan, the call still succeeds. -/
theorem detectRun_errorClassification_witness :
    detectRun (Except.ok false) (Except.ok []) = ⟨Except.ok (), false, []⟩ ∧
    (detectRun (Except.ok true)
      (Except.ok [⟨"bd-gone.1", "Orphan", "open"⟩])).res = Except.ok () :=
  ⟨(detectRun_errorClassification (Except.ok false) (Except.ok [])).2.1 rfl,
   (detectRun_errorClassification (Except.ok true)
      (Except.ok [⟨"bd-gone.1", "Orphan", "open"⟩])).2.2
      [⟨"bd-gone.1", "Orphan", "open"⟩] rfl rfl⟩

/-- C8: orphan detection is read-only and idempotent: running it against a
database state leaves the state (hence the issues table) unchanged, a
second run produces the same outcome and report as the first, and the
query result over the table is unchanged by a run. -/
theorem detect_readonly_idempotent (st : DbState) :
    (detectRunState st).1 = st ∧
    detectRunState ((detectRunState st).1) = detectRunState st ∧
    QueryOrphanedChildren ((detectRunState st).1).issues =
      QueryOrphanedChildren st.issues :=
  ⟨rfl, rfl, rfl⟩

/-- C7: the wisp-type column migration is idempotent: it always succeeds,
the resulting schema has the wisp_type column, a second application
returns the same schema with no error, and when the column already
exists the first application is already a no-op. -/
theorem migrateWispType_idempotent (s : Schema) :
    ∃ s2 : Schema, MigrateWispTypeColumn s = Except.ok s2 ∧
      MigrateWispTypeColumn s2 = Except.ok s2 ∧
      columnExistsS s2 "wisp_type" = true ∧
      (columnExistsS s "wisp_type" = true → s2 = s) := by
  by_cases h : columnExistsS s "wisp_type" = true
  · exact ⟨s, by simp [MigrateWispTypeColumn, h], by simp [MigrateWispTypeColumn, h],
      h, fun _ => rfl⟩
  · refine ⟨⟨s.issuesCols ++ ["wisp_type"]⟩, ?_, ?_, ?_, fun hc => absurd hc h⟩
    · simp [MigrateWispTypeColumn, h]
    · have hex : columnExistsS ⟨s.issuesCols ++ ["wisp_type"]⟩ "wisp_type" = true := by
        simp [columnExistsS]
      simp [MigrateWispTypeColumn, hex]
    · simp [columnExistsS]

/-- C4: invoked with no open store handle, sync is a no-op that succeeds:
no commit, export or push is attempted and nothing is printed. -/
theorem syncRun_nilStore (env : SyncEnv) (h : env.storeOpen = false) :
    syncRun env = noopTrace := by
  simp [syncRun, h]

/-- Witness for C4: the concrete environment with a nil store yields the
empty trace. -/
theorem syncRun_nilStore_witness :
    syncRun { sampleEnv with storeOpen := false } = noopTrace :=
  syncRun_nilStore _ rfl

/-- C5: a commit error classified as nothing-to-commit produces no warning,
any other commit error produces a commit warning on standard error, and
in either case the rest of the pipeline (export and push) runs exactly as
it would after a successful commit. -/
theorem syncRun_commitClassification (env : SyncEnv) (e : String)
    (hs : env.storeOpen = true) (hd : ¬ env.beadsDir = "")
    (hc : env.commitRes = Except.error e) :
    (env.nothingToCommit e = true → (syncRun env).commitWarning = none) ∧
    (env.nothingToCommit e = false →
      (syncRun env).commitWarning = some ("Warning: Dolt commit failed: " ++ e)) ∧
    traceRest (syncRun env) =
      traceRest (syncRun { env with commitRes := Except.ok () }) := by
  refine ⟨?_, ?_, ?_⟩
  · intro hn
    cases hm : env.syncMode <;> simp [syncRun, commitStep, hs, hd, hc, hn, hm]
  · intro hn
    cases hm : env.syncMode <;> simp [syncRun, commitStep, hs, hd, hc, hn, hm]
  · cases hm : env.syncMode <;>
      simp [syncRun, traceRest, hs, hd, hm, pushStep, exportStep]

/-- Witness for C5: a commit error not classified as nothing-to-commit, in
the concrete environment, produces the commit warning. -/
theorem syncRun_commitClassification_witness :
    (syncRun { sampleEnv with commitRes := Except.error "boom" }).commitWarning =
      some ("Warning: Dolt commit failed: " ++ "boom") :=
  (syncRun_commitClassification { sampleEnv with commitRes := Except.error "boom" }
    "boom" rfl (by decide) rfl).2.1 rfl

/-- C6: the export step runs exactly when the configured mode is not
dolt-native, and the push outcome equals pushStep in both modes,
determined solely by the remote check, independent of the export result. -/
theorem syncRun_modeBranch (env : SyncEnv)
    (hs : env.storeOpen = true) (hd : ¬ env.beadsDir = "") :
    ((syncRun env).exportAttempted = decide (¬ env.syncMode = SyncMode.doltNative)) ∧
    ((syncRun env).pushAttempted, (syncRun env).pushWarning, (syncRun env).pushInfo) =
      pushStep env ∧
    (syncRun env).pushAttempted = remoteConfigured env := by
  refine ⟨?_, ?_, ?_⟩
  · cases hm : env.syncMode <;> simp [syncRun, hs, hd, hm]
  · cases hm : env.syncMode <;> simp [syncRun, hs, hd, hm]
  · cases hm : env.syncMode <;> simp [syncRun, hs, hd, hm, pushStep_fst]

/-- Witness for C6: in the concrete mirror-mode environment, export is
attempted and the push outcome is the push step result. -/
theorem syncRun_modeBranch_witness :
    ((syncRun sampleEnv).exportAttempted =
      decide (¬ sampleEnv.syncMode = SyncMode.doltNative)) ∧
    ((syncRun sampleEnv).pushAttempted, (syncRun sampleEnv).pushWarning,
      (syncRun sampleEnv).pushInfo) = pushStep sampleEnv ∧
    (syncRun sampleEnv).pushAttempted = remoteConfigured sampleEnv :=
  syncRun_modeBranch sampleEnv rfl (by decide)

/-- C9: with an open store but an empty FindBeadsDir result, sync silently
does nothing: no commit, export or push and no output, so a nil store is
not the only no-op condition. -/
theorem syncRun_noBeadsDir (env : SyncEnv)
    (hs : env.storeOpen = true) (hd : env.beadsDir = "") :
    syncRun env = noopTrace := by
  simp [syncRun, hs, hd]

/-- Witness for C9: the concrete environment with an open store and an
empty beads directory yields the empty trace. -/
theorem syncRun_noBeadsDir_witness :
    syncRun { sampleEnv with beadsDir := "" } = noopTrace :=
  syncRun_noBeadsDir _ rfl rfl

/-- C10: when HasRemote(origin) returns an error, the push step is silently
skipped: no push attempt, no warning, no success message, and the whole
trace equals the trace of the same environment with no remote configured,
in both modes. -/
theorem syncRun_hasRemoteError (env : SyncEnv) (e : String)
    (hr : env.hasRemoteRes = Except.error e) :
    syncRun env = syncRun { env with hasRemoteRes := Except.ok false } ∧
    (syncRun env).pushAttempted = false ∧
    (syncRun env).pushWarning = none ∧
    (syncRun env).pushInfo = false := by
  have hps : pushStep env = (false, none, false) := by simp [pushStep, hr]
  have hps2 : pushStep { env with hasRemoteRes := Except.ok false } =
      (false, none, false) := by simp [pushStep]
  have hcs : commitStep { env with hasRemoteRes := Except.ok false } =
      commitStep env := rfl
  have hes : exportStep { env with hasRemoteRes := Except.ok false } =
      exportStep env := rfl
  have hfields : (syncRun env).pushAttempted = false ∧
      (syncRun env).pushWarning = none ∧ (syncRun env).pushInfo = false := by
    by_cases h1 : env.storeOpen = false
    · simp [syncRun, h1, noopTrace]
    · by_cases h2 : env.beadsDir = ""
      · simp [syncRun, h1, h2, noopTrace]
      · cases hm : env.syncMode <;> simp [syncRun, h1, h2, hm, hps]
  refine ⟨?_, hfields.1, hfields.2.1, hfields.2.2⟩
  by_cases h1 : env.storeOpen = false
  · simp [syncRun, h1]
  · by_cases h2 : env.beadsDir = ""
    · simp [syncRun, h1, h2]
    · cases hm : env.syncMode <;>
        simp [syncRun, h1, h2, hm, hr, pushStep, commitStep, exportStep]

/-- Witness for C10: in the concrete environment whose remote check errors,
no push is attempted and nothing about the push is printed. -/
theorem syncRun_hasRemoteError_witness :
    (syncRun { sampleEnv with hasRemoteRes := Except.error "remote check failed" }).pushAttempted = false ∧
    (syncRun { sampleEnv with hasRemoteRes := Except.error "remote check failed" }).pushWarning = none ∧
    (syncRun { sampleEnv with hasRemoteRes := Except.error "remote check failed" }).pushInfo = false :=
  (syncRun_hasRemoteError { sampleEnv with hasRemoteRes := Except.error "remote check failed" }
    "remote check failed" rfl).2
